import Mathlib

/-!
# gatsby-node.js : navigation loading and page-route resolution

A shallow embedding of `src/gatsby-node.js`:

* `sourceNodes` (lines 144-179): reads the configured table-of-contents files,
  gives every entry and nested link an id, and publishes one `NavData` node;
* `createPages` (lines 13-80): emits one `createPage` request per content document,
  routed through the navigation entries.

JavaScript values are embedded as data (`Scalar`, `Link`, `Val`, `Entry`), the random id
generator `nanoid` as a stream `gen : Nat → String` with an explicit call counter, the
file system as a function from paths to `FileContent`, exceptions as `Except JsError`,
and calls on the host (`reporter`, `createNode`, `createPage`) as lists of effects.
-/

namespace GatsbyNode

/-! ## JavaScript values -/

/-- Scalar values of a parsed YAML document or of a GraphQL result, with the JavaScript value
`undefined` that reading an absent property gives. Numbers are the integer ones. -/
inductive Scalar where
  | undefined
  | null
  | bool (b : Bool)
  | num (n : Int)
  | str (s : String)
  deriving DecidableEq, Repr

/-- JavaScript truthiness: `undefined`, `null`, `false`, `0` and the empty string are falsy. -/
def Scalar.truthy : Scalar → Bool
  | .undefined => false
  | .null => false
  | .bool b => b
  | .num n => decide (n ≠ 0)
  | .str s => decide (s ≠ "")

/-- The values on which the operator `??` falls back: `undefined` and `null` only. -/
def Scalar.nullish : Scalar → Bool
  | .undefined => true
  | .null => true
  | _ => false

/-- An object as the list of its own properties. -/
abbrev Obj (V : Type) := List (String × V)

/-- A nested link of the table of contents: a mapping with scalar values. -/
abbrev Link := Obj Scalar

/-- The value of a property of a top-level entry: a scalar, or a list of mappings
(as `links` is). -/
inductive Val where
  | scalar (s : Scalar)
  | list (ls : List Link)
  deriving DecidableEq, Repr

/-- Truthiness of a property value: every array is truthy, the empty one too. -/
def Val.truthy : Val → Bool
  | .scalar s => s.truthy
  | .list _ => true

/-- A top-level navigation entry: a mapping. -/
abbrev Entry := Obj Val

/-- The own property `k` of an object, if it has one. -/
def lookupProp {V : Type} : Obj V → String → Option V
  | [], _ => none
  | (k', v) :: rest, k => if k' = k then some v else lookupProp rest k

/-- Whether the object has an own property `k`. -/
def hasProp {V : Type} (o : Obj V) (k : String) : Bool :=
  (lookupProp o k).isSome

/-- The object literal `{ ...o, k: v }`: the properties of `o`, with `k` set to `v`
(in place when `o` has it, added at the end otherwise). -/
def setProp {V : Type} : Obj V → String → V → Obj V
  | [], k, v => [(k, v)]
  | (k', w) :: rest, k, v =>
    if k' = k then (k', v) :: rest else (k', w) :: setProp rest k v

/-- The expression `link.k`: reading an absent property gives `undefined`. -/
def Link.prop (l : Link) (k : String) : Scalar :=
  (lookupProp l k).getD Scalar.undefined

/-- The expression `navItem.k`: reading an absent property gives `undefined`. -/
def Entry.prop (e : Entry) (k : String) : Val :=
  (lookupProp e k).getD (Val.scalar Scalar.undefined)

/-! ## sourceNodes -/

/-- Exceptions that `sourceNodes` lets escape. -/
inductive JsError where
  | yamlException
  | typeError
  deriving DecidableEq, Repr

/-- What is at a file location: nothing (`fs.existsSync` is false), a file on which
`yaml.load` raises, a file whose document is not a list (so that `toc.map` is not a
function), or a file whose document is a list of mappings. -/
inductive FileContent where
  | missing
  | malformed
  | notAList
  | toc (entries : List Entry)
  deriving DecidableEq, Repr

/-- The link `{ ...link, id: link.id || nanoid() }` (line 165), with the generator's counter
after it. -/
def mapLink (gen : Nat → String) (link : Link) (n : Nat) : Link × Nat :=
  if (link.prop "id").truthy then (setProp link "id" (link.prop "id"), n)
  else (setProp link "id" (Scalar.str (gen n)), n + 1)

/-- The array `links.map(...)` of line 165, the links taken in order. -/
def mapLinks (gen : Nat → String) : List Link → Nat → List Link × Nat
  | [], n => ([], n)
  | link :: rest, n =>
    let r := mapLink gen link n
    let rs := mapLinks gen rest r.2
    (r.1 :: rs.1, rs.2)

/-- The value `navItem.id || nanoid()` (line 162), with the generator's counter after it. -/
def entryId (gen : Nat → String) (navItem : Entry) (n : Nat) : Val × Nat :=
  if (navItem.prop "id").truthy then (navItem.prop "id", n)
  else (Val.scalar (Scalar.str (gen n)), n + 1)

/-- The entry built at lines 160-166: the id is evaluated first, then `links`.
A falsy `links` is kept as it is, an array is mapped, and on any other value `.map` is
not a function. -/
def mapEntry (gen : Nat → String) (navItem : Entry) (n : Nat) : Except JsError (Entry × Nat) :=
  let i := entryId gen navItem n
  match navItem.prop "links" with
  | Val.scalar s =>
    if s.truthy then Except.error JsError.typeError
    else Except.ok (setProp (setProp navItem "id" i.1) "links" (Val.scalar s), i.2)
  | Val.list ls =>
    let r := mapLinks gen ls i.2
    Except.ok (setProp (setProp navItem "id" i.1) "links" (Val.list r.1), r.2)

/-- The array `toc.map(...)` of line 160, the entries taken in order. -/
def mapToc (gen : Nat → String) : List Entry → Nat → Except JsError (List Entry × Nat)
  | [], n => Except.ok ([], n)
  | navItem :: rest, n =>
    match mapEntry gen navItem n with
    | Except.error err => Except.error err
    | Except.ok (e, n1) =>
      match mapToc gen rest n1 with
      | Except.error err => Except.error err
      | Except.ok (es, n2) => Except.ok (e :: es, n2)

/-- The host's side of `sourceNodes`: the directory of the module, the file system, and
the two helpers Gatsby passes in. -/
structure Env where
  dirname : String
  fs : String → FileContent
  createNodeId : String → String
  createContentDigest : List Entry → String

/-- The file location of a table-of-contents source (line 151). -/
def Env.fileLocation (env : Env) (tocSource : String) : String :=
  env.dirname ++ "/" ++ tocSource

/-- The message of line 154. -/
def missingMessage (fileLocation : String) : String :=
  "Table of Contents file " ++ fileLocation ++ " missing.  Skipped."

/-- The `tocSources.flatMap(...)` of lines 150-167: the messages given to `reporter.error`
so far, and either the exception that escaped or the entries with the generator's
counter. -/
def loadSources (env : Env) (gen : Nat → String) :
    List String → Nat → List String × Except JsError (List Entry × Nat)
  | [], n => ([], Except.ok ([], n))
  | tocSource :: rest, n =>
    match env.fs (env.fileLocation tocSource) with
    | FileContent.missing =>
      let r := loadSources env gen rest n
      (missingMessage (env.fileLocation tocSource) :: r.1, r.2)
    | FileContent.malformed => ([], Except.error JsError.yamlException)
    | FileContent.notAList => ([], Except.error JsError.typeError)
    | FileContent.toc entries =>
      match mapToc gen entries n with
      | Except.error err => ([], Except.error err)
      | Except.ok (es, n1) =>
        let r := loadSources env gen rest n1
        match r.2 with
        | Except.error err => (r.1, Except.error err)
        | Except.ok (es2, n2) => (r.1, Except.ok (es ++ es2, n2))

/-- The node given to `createNode` (lines 169-176). -/
structure NavDataNode where
  id : String
  navItems : List Entry
  type : String
  contentDigest : String
  deriving DecidableEq, Repr

/-- Calls that `sourceNodes` makes on the host. -/
inductive SourceEffect where
  | reporterError (message : String)
  | createNode (node : NavDataNode)
  | reporterSuccess (message : String)
  deriving DecidableEq, Repr

/-- The run of `sourceNodes`: the calls made on the host, in order, and how it ended:
with an exception, or normally with the generator's counter. -/
structure Outcome where
  effects : List SourceEffect
  result : Except JsError Nat

/-- The function `exports.sourceNodes` (lines 144-179) on the configured `tocSources`,
with the generator's counter at `n` when it starts. -/
def sourceNodes (env : Env) (gen : Nat → String) (tocSources : List String) (n : Nat) :
    Outcome :=
  let r := loadSources env gen tocSources n
  match r.2 with
  | Except.error err =>
    { effects := r.1.map SourceEffect.reporterError, result := Except.error err }
  | Except.ok (navItems, n1) =>
    { effects := r.1.map SourceEffect.reporterError ++
        [SourceEffect.createNode
           { id := env.createNodeId "NavData"
             navItems := navItems
             type := "NavData"
             contentDigest := env.createContentDigest navItems },
         SourceEffect.reporterSuccess "nodes created: NavData"]
      result := Except.ok n1 }

/-- The `navItems` of the node that the run published, if it published one. -/
def Outcome.navItems (o : Outcome) : Option (List Entry) :=
  o.effects.findSome? (fun eff =>
    match eff with
    | SourceEffect.createNode node => some node.navItems
    | _ => none)

/-! ## createPages -/

/-- The templates pages are made for (line 11). -/
def supportedTemplates : List String := ["Mdx"]

/-- An element of `navData.navItems` as the query of lines 16-27 returns it: the two
selected fields, `null` where the entry has none. -/
structure NavItem where
  href : Scalar
  index : Scalar
  deriving DecidableEq, Repr

/-- A content document as the query of lines 36-49 returns it: `id` and `fields.slug`. -/
structure Post where
  id : String
  slug : Scalar
  deriving DecidableEq, Repr

/-- The result of the content query: `errors` when the query failed, and the documents
`data.all<type>.nodes`. -/
structure QueryResult where
  errors : Option (List String)
  nodes : List Post
  deriving DecidableEq, Repr

/-- The argument of `createPage` (lines 69-75). -/
structure Page where
  path : Scalar
  component : String
  contextId : String
  deriving DecidableEq, Repr

/-- Calls that `createPages` makes on the host. -/
inductive PageEffect where
  | panicOnBuild (message : String) (errors : List String)
  | createPage (page : Page)
  deriving DecidableEq, Repr

/-- The expression `items.find((item) => item.href === post.fields.slug)?.index`
(lines 63-65): `undefined` when no item is found. -/
def findRoot (items : List NavItem) (slug : Scalar) : Scalar :=
  match items.find? (fun item => decide (item.href = slug)) with
  | some item => item.index
  | none => Scalar.undefined

/-- The expression `root ?? post.fields.slug` (line 67). -/
def newPath (items : List NavItem) (slug : Scalar) : Scalar :=
  if (findRoot items slug).nullish then slug else findRoot items slug

/-- The template file of line 33; `resolve` is `path.resolve`. -/
def templateFile (resolve : String → String) (type : String) : String :=
  resolve ("./src/templates/" ++ type ++ ".js")

/-- The callback of `supportedTemplates.map` (lines 31-78) on the result of its query. -/
def templatePages (resolve : String → String) (items : List NavItem) (type : String)
    (result : QueryResult) : List PageEffect :=
  match result.errors with
  | some errors =>
    [PageEffect.panicOnBuild "There was an error loading your blog posts" errors]
  | none =>
    if result.nodes.length > 0 then
      result.nodes.map (fun post =>
        PageEffect.createPage
          { path := newPath items post.slug
            component := templateFile resolve type
            contextId := post.id })
    else []

/-- The function `exports.createPages` (lines 13-80): `items` is the result of the
navigation query and `graphql type` the result of the content query for a template. -/
def createPages (resolve : String → String) (items : List NavItem)
    (graphql : String → QueryResult) : List PageEffect :=
  (supportedTemplates.map (fun type => templatePages resolve items type (graphql type))).flatten

/-! ## Reading the sources and the published entries -/

/-- Whether `links` of an entry is a value line 164-165 handles without raising:
falsy, or an array. -/
def linksOk (e : Entry) : Bool :=
  match e.prop "links" with
  | Val.scalar s => !s.truthy
  | Val.list _ => true

/-- Whether a source is missing, or a list of entries each with a usable `links`. -/
def FileContent.loadable : FileContent → Bool
  | FileContent.missing => true
  | FileContent.toc entries => entries.all linksOk
  | _ => false

/-- Whether nothing is at the location. -/
def FileContent.isMissing : FileContent → Bool
  | FileContent.missing => true
  | _ => false

/-- The entries a file contains as authored; none when it is not a list of entries. -/
def FileContent.entries : FileContent → List Entry
  | FileContent.toc entries => entries
  | _ => []

/-- The authored entries of all the sources, in source order then in-file order. -/
def sourceEntries (env : Env) (tocSources : List String) : List Entry :=
  (tocSources.map (fun s => (env.fs (env.fileLocation s)).entries)).flatten

/-- The sources that are missing, in order. -/
def missingSources (env : Env) (tocSources : List String) : List String :=
  tocSources.filter (fun s => (env.fs (env.fileLocation s)).isMissing)

/-- Whether an effect is a call of `reporter.error`. -/
def SourceEffect.isError : SourceEffect → Bool
  | SourceEffect.reporterError _ => true
  | _ => false

/-- The `id` values of a list of links as the entry holds them, in order. -/
def linkIds (ls : List Link) : List Val :=
  ls.map (fun l => Val.scalar (l.prop "id"))

/-- The `id` values of an entry and of its nested links, in the order line 160-166
evaluates them. -/
def entryIds (e : Entry) : List Val :=
  e.prop "id" ::
    (match e.prop "links" with
     | Val.list ls => linkIds ls
     | Val.scalar _ => [])

/-- The `id` values of the whole navigation tree. -/
def treeIds (es : List Entry) : List Val :=
  (es.map entryIds).flatten

/-- The authored ids that loading keeps: the truthy ones. -/
def authoredIds (es : List Entry) : List Val :=
  (treeIds es).filter Val.truthy

/-- The number of entries and links without a truthy authored id. -/
def missingIdCount (es : List Entry) : Nat :=
  (treeIds es).countP (fun v => !v.truthy)

/-- The ids after loading, computed on the authored `id` values alone: a truthy value is
kept, and each other one is replaced by the next value of the generator. -/
def fillIds (gen : Nat → String) : List Val → Nat → List Val × Nat
  | [], n => ([], n)
  | v :: rest, n =>
    if v.truthy then (v :: (fillIds gen rest n).1, (fillIds gen rest n).2)
    else (Val.scalar (Scalar.str (gen n)) :: (fillIds gen rest (n + 1)).1,
          (fillIds gen rest (n + 1)).2)

/-- The exception that reading the sources in order runs into first, if any. -/
def firstFailure (env : Env) : List String → Option JsError
  | [] => none
  | tocSource :: rest =>
    match env.fs (env.fileLocation tocSource) with
    | FileContent.missing => firstFailure env rest
    | FileContent.malformed => some JsError.yamlException
    | FileContent.notAList => some JsError.typeError
    | FileContent.toc entries =>
      if entries.all linksOk then firstFailure env rest else some JsError.typeError

/-- The messages for the missing sources that are reached before the first exception. -/
def loadDiagnostics (env : Env) : List String → List String
  | [] => []
  | tocSource :: rest =>
    match env.fs (env.fileLocation tocSource) with
    | FileContent.missing =>
      missingMessage (env.fileLocation tocSource) :: loadDiagnostics env rest
    | FileContent.malformed => []
    | FileContent.notAList => []
    | FileContent.toc entries =>
      if entries.all linksOk then loadDiagnostics env rest else []

/-- The entry `entry` is the first one of `items`, in order, whose `href` is `slug`. -/
def FirstMatch (items : List NavItem) (slug : Scalar) (entry : NavItem) : Prop :=
  ∃ before after, items = before ++ entry :: after ∧
    (∀ x ∈ before, x.href ≠ slug) ∧ entry.href = slug

/-- No entry of `items` has `slug` as its `href`. -/
def NoMatch (items : List NavItem) (slug : Scalar) : Prop :=
  ∀ x ∈ items, x.href ≠ slug

/-- How loading sets the `id` of a link: a truthy authored id is kept, and otherwise the id
is a value of the generator. -/
def LinkIdRule (gen : Nat → String) (l l2 : Link) : Prop :=
  ((l.prop "id").truthy = true → l2.prop "id" = l.prop "id") ∧
  ((l.prop "id").truthy = false → ∃ k, l2.prop "id" = Scalar.str (gen k))

/-- How loading sets the `id` of an entry and of each of its nested links. -/
def EntryIdRule (gen : Nat → String) (e e2 : Entry) : Prop :=
  ((e.prop "id").truthy = true → e2.prop "id" = e.prop "id") ∧
  ((e.prop "id").truthy = false → ∃ k, e2.prop "id" = Val.scalar (Scalar.str (gen k))) ∧
  (∀ ls, e.prop "links" = Val.list ls →
    ∃ ls2, e2.prop "links" = Val.list ls2 ∧ List.Forall₂ (LinkIdRule gen) ls ls2)

/-- The produced link has every authored property other than `id` as authored. -/
def LinkFrame (l l2 : Link) : Prop :=
  ∀ k, k ≠ "id" → lookupProp l2 k = lookupProp l k

/-- The produced entry has every authored property other than `id` and `links` as
authored; its `links`, when authored as a list, is a list of the same length whose links
correspond in order; any other authored `links` value is kept; and without authored
`links` reading `links` of the produced entry gives `undefined`. -/
def EntryFrame (e e2 : Entry) : Prop :=
  (∀ k, k ≠ "id" → k ≠ "links" → lookupProp e2 k = lookupProp e k) ∧
  (∀ ls, e.prop "links" = Val.list ls →
    ∃ ls2, e2.prop "links" = Val.list ls2 ∧ ls2.length = ls.length ∧
      List.Forall₂ LinkFrame ls ls2) ∧
  (∀ s, e.prop "links" = Val.scalar s → e2.prop "links" = Val.scalar s) ∧
  (hasProp e "links" = false → e2.prop "links" = Val.scalar Scalar.undefined)

/-- What two loads of an authored link `l` agree on: every property other than `id`, and
the whole link when the authored id is truthy. -/
def SameLoadedLink (l x y : Link) : Prop :=
  (∀ k, k ≠ "id" → lookupProp x k = lookupProp y k) ∧
  ((l.prop "id").truthy = true → x = y)

/-- The entry and all the links of its `links` have a truthy authored id. -/
def FullyAuthored (e : Entry) : Prop :=
  (e.prop "id").truthy = true ∧
  ∀ ls, e.prop "links" = Val.list ls → ∀ l ∈ ls, (l.prop "id").truthy = true

/-- What two loads `a` and `b` of an authored entry `e` agree on: every property other than
`id` and `links`; the `id` when the authored one is truthy; the length of `links` and, link
by link, what `SameLoadedLink` says; and the whole entry when it is fully authored. -/
def SameLoadedEntry (e a b : Entry) : Prop :=
  (∀ k, k ≠ "id" → k ≠ "links" → lookupProp a k = lookupProp b k) ∧
  ((e.prop "id").truthy = true → a.prop "id" = b.prop "id") ∧
  (∀ ls, e.prop "links" = Val.list ls →
    ∃ la lb, a.prop "links" = Val.list la ∧ b.prop "links" = Val.list lb ∧
      la.length = lb.length ∧
      ∀ (j : Nat) (l x y : Link), ls[j]? = some l → la[j]? = some x → lb[j]? = some y →
        SameLoadedLink l x y) ∧
  (∀ s, e.prop "links" = Val.scalar s → a.prop "links" = b.prop "links") ∧
  (FullyAuthored e → a = b)

/-! ## Concrete inputs -/

/-- Navigation entries as the query returns them: two with the same `href`, one without
`index`. -/
def guideItems : List NavItem :=
  [ { href := Scalar.str "/guide", index := Scalar.str "/" },
    { href := Scalar.str "/guide", index := Scalar.str "/later" },
    { href := Scalar.str "/api", index := Scalar.null } ]

/-- A content query that returns three documents and no errors. -/
def guideQuery : String → QueryResult := fun _ =>
  { errors := none
    nodes := [ { id := "doc-1", slug := Scalar.str "/guide" },
               { id := "doc-2", slug := Scalar.str "/api" },
               { id := "doc-3", slug := Scalar.str "/unlisted" } ] }

/-- A content query that returns no document and no errors. -/
def emptyQuery : String → QueryResult := fun _ =>
  { errors := none, nodes := [] }

/-- A navigation entry whose `index` is the empty string. -/
def emptyIndexItems : List NavItem :=
  [ { href := Scalar.str "/a", index := Scalar.str "" } ]

/-- A content query that returns the one document with slug `/a`. -/
def emptyIndexQuery : String → QueryResult := fun _ =>
  { errors := none, nodes := [ { id := "doc-a", slug := Scalar.str "/a" } ] }

/-- A table of contents: an entry with an id and two links, one of them without id, and an
entry without id and without links. -/
def docsToc : List Entry :=
  [ [ ("label", Val.scalar (Scalar.str "Guide")),
      ("href", Val.scalar (Scalar.str "/guide")),
      ("index", Val.scalar (Scalar.str "/")),
      ("id", Val.scalar (Scalar.str "guide")),
      ("links", Val.list
        [ [ ("label", Scalar.str "Intro"), ("href", Scalar.str "/guide/intro"),
            ("id", Scalar.str "intro") ],
          [ ("label", Scalar.str "Setup"), ("href", Scalar.str "/guide/setup") ] ]) ],
    [ ("label", Val.scalar (Scalar.str "API")),
      ("href", Val.scalar (Scalar.str "/api")) ] ]

/-- A table of contents whose one entry is authored with the empty string as `id`. -/
def emptyIdToc : List Entry :=
  [ [ ("id", Val.scalar (Scalar.str "")),
      ("label", Val.scalar (Scalar.str "Guide")),
      ("href", Val.scalar (Scalar.str "/guide")) ] ]

/-- A site with two tables of contents and one file that does not parse; nothing else
exists. -/
def siteEnv : Env :=
  { dirname := "/site"
    fs := fun location =>
      if location = "/site/docs.yaml" then FileContent.toc docsToc
      else if location = "/site/empty-id.yaml" then FileContent.toc emptyIdToc
      else if location = "/site/broken.yaml" then FileContent.malformed
      else FileContent.missing
    createNodeId := fun name => name
    createContentDigest := fun _ => "digest" }

/-- An id generator: the k-th id is k+1 times the letter x. -/
def xIds (k : Nat) : String :=
  String.mk (List.replicate (k + 1) 'x')

/-- Another id generator: the k-th id is k+1 times the letter y. -/
def yIds (k : Nat) : String :=
  String.mk (List.replicate (k + 1) 'y')

/-! ## Objects -/

theorem lookupProp_setProp_same {V : Type} (o : Obj V) (k : String) (v : V) :
    lookupProp (setProp o k v) k = some v := by
  induction o with
  | nil => simp [setProp, lookupProp]
  | cons p rest ih =>
    obtain ⟨a, b⟩ := p
    by_cases hk : a = k
    · simp [setProp, lookupProp, hk]
    · simp [setProp, lookupProp, hk, ih]

theorem lookupProp_setProp_ne {V : Type} (o : Obj V) (k k2 : String) (v : V) (hne : k2 ≠ k) :
    lookupProp (setProp o k v) k2 = lookupProp o k2 := by
  induction o with
  | nil => simp [setProp, lookupProp, Ne.symm hne]
  | cons p rest ih =>
    obtain ⟨a, b⟩ := p
    by_cases hk : a = k
    · have hk2 : ¬ a = k2 := fun h2 => hne (h2.symm.trans hk)
      simp [setProp, lookupProp, hk]
      simp [← hk, hk2]
    · by_cases hk2 : a = k2
      · simp [setProp, hk]
        simp [lookupProp, hk2]
      · simp [setProp, lookupProp, hk, hk2, ih]

theorem entryProp_setProp_same (e : Entry) (k : String) (v : Val) :
    Entry.prop (setProp e k v) k = v := by
  simp [Entry.prop, lookupProp_setProp_same]

theorem entryProp_setProp_ne (e : Entry) (k k2 : String) (v : Val) (hne : k2 ≠ k) :
    Entry.prop (setProp e k v) k2 = Entry.prop e k2 := by
  simp [Entry.prop, lookupProp_setProp_ne e k k2 v hne]

theorem linkProp_setProp_same (l : Link) (k : String) (v : Scalar) :
    Link.prop (setProp l k v) k = v := by
  simp [Link.prop, lookupProp_setProp_same]

/-! ## The mapping of links, entries and files -/

theorem mapLinks_forall2 (gen : Nat → String) (R : Link → Link → Prop)
    (hR : ∀ l k, R l (mapLink gen l k).1) (ls : List Link) (n : Nat) :
    List.Forall₂ R ls (mapLinks gen ls n).1 := by
  induction ls generalizing n with
  | nil => exact List.Forall₂.nil
  | cons l rest ih => exact List.Forall₂.cons (hR l n) (ih _)

theorem mapEntry_cases (gen : Nat → String) (e e2 : Entry) (k k2 : Nat)
    (h : mapEntry gen e k = Except.ok (e2, k2)) :
    (∃ s, e.prop "links" = Val.scalar s ∧ s.truthy = false ∧
        e2 = setProp (setProp e "id" (entryId gen e k).1) "links" (Val.scalar s) ∧
        k2 = (entryId gen e k).2) ∨
    (∃ ls, e.prop "links" = Val.list ls ∧
        e2 = setProp (setProp e "id" (entryId gen e k).1) "links"
          (Val.list (mapLinks gen ls (entryId gen e k).2).1) ∧
        k2 = (mapLinks gen ls (entryId gen e k).2).2) := by
  unfold mapEntry at h
  cases hl : e.prop "links" with
  | scalar s =>
    rw [hl] at h
    by_cases ht : s.truthy = true
    · simp [ht] at h
    · simp [ht] at h
      exact Or.inl ⟨s, rfl, by simpa using ht, h.1.symm, h.2.symm⟩
  | list ls =>
    rw [hl] at h
    simp at h
    exact Or.inr ⟨ls, rfl, h.1.symm, h.2.symm⟩

theorem mapEntry_ok_of_linksOk (gen : Nat → String) (e : Entry) (k : Nat)
    (h : linksOk e = true) : ∃ r, mapEntry gen e k = Except.ok r := by
  unfold linksOk at h
  unfold mapEntry
  cases hl : e.prop "links" with
  | scalar s =>
    rw [hl] at h
    have ht : s.truthy = false := by simpa using h
    simp [ht]
  | list ls => simp

theorem mapEntry_error_of_not_linksOk (gen : Nat → String) (e : Entry) (k : Nat)
    (h : linksOk e = false) : mapEntry gen e k = Except.error JsError.typeError := by
  unfold linksOk at h
  unfold mapEntry
  cases hl : e.prop "links" with
  | scalar s =>
    rw [hl] at h
    have ht : s.truthy = true := by simpa using h
    simp [ht]
  | list ls => rw [hl] at h; simp at h

theorem mapToc_forall2 (gen : Nat → String) (R : Entry → Entry → Prop)
    (hR : ∀ e k e2 k2, mapEntry gen e k = Except.ok (e2, k2) → R e e2)
    (es : List Entry) (n : Nat) (es2 : List Entry) (n2 : Nat)
    (h : mapToc gen es n = Except.ok (es2, n2)) : List.Forall₂ R es es2 := by
  induction es generalizing n es2 n2 with
  | nil =>
    simp only [mapToc, Except.ok.injEq, Prod.mk.injEq] at h
    rw [← h.1]
    exact List.Forall₂.nil
  | cons e rest ih =>
    cases he : mapEntry gen e n with
    | error err => simp [mapToc, he] at h
    | ok r =>
      obtain ⟨e1, n1⟩ := r
      cases hr : mapToc gen rest n1 with
      | error err => simp [mapToc, he, hr] at h
      | ok r2 =>
        obtain ⟨es1, n3⟩ := r2
        simp only [mapToc, he, hr, Except.ok.injEq, Prod.mk.injEq] at h
        rw [← h.1]
        exact List.Forall₂.cons (hR e n e1 n1 he) (ih n1 es1 n3 hr)

theorem mapToc_ok_of_all (gen : Nat → String) (es : List Entry) (n : Nat)
    (h : es.all linksOk = true) : ∃ r, mapToc gen es n = Except.ok r := by
  induction es generalizing n with
  | nil => exact ⟨_, rfl⟩
  | cons e rest ih =>
    simp only [List.all_cons, Bool.and_eq_true] at h
    obtain ⟨r, hr⟩ := mapEntry_ok_of_linksOk gen e n h.1
    obtain ⟨e1, n1⟩ := r
    obtain ⟨r2, hr2⟩ := ih n1 h.2
    obtain ⟨es1, n2⟩ := r2
    exact ⟨(e1 :: es1, n2), by simp [mapToc, hr, hr2]⟩

theorem mapToc_error_of_not_all (gen : Nat → String) (es : List Entry) (n : Nat)
    (h : es.all linksOk = false) : mapToc gen es n = Except.error JsError.typeError := by
  induction es generalizing n with
  | nil => simp at h
  | cons e rest ih =>
    by_cases he : linksOk e = true
    · have hrest : rest.all linksOk = false := by
        cases hr : rest.all linksOk
        · rfl
        · simp [List.all_cons, he, hr] at h
      obtain ⟨r, hr⟩ := mapEntry_ok_of_linksOk gen e n he
      obtain ⟨e1, n1⟩ := r
      simp [mapToc, hr, ih n1 hrest]
    · have he2 : linksOk e = false := by simpa using he
      simp [mapToc, mapEntry_error_of_not_linksOk gen e n he2]

theorem loadSources_fst (env : Env) (gen : Nat → String) (srcs : List String) (n : Nat) :
    (loadSources env gen srcs n).1 = loadDiagnostics env srcs := by
  induction srcs generalizing n with
  | nil => rfl
  | cons s rest ih =>
    unfold loadSources loadDiagnostics
    cases hf : env.fs (env.fileLocation s) with
    | missing => simp [ih]
    | malformed => rfl
    | notAList => rfl
    | toc es =>
      by_cases hall : es.all linksOk = true
      · obtain ⟨r, hr⟩ := mapToc_ok_of_all gen es n hall
        obtain ⟨es1, n1⟩ := r
        simp only [hr, hall, if_true]
        cases h2 : (loadSources env gen rest n1).2 with
        | error err => simp [ih]
        | ok r2 => simp [ih]
      · have hall2 : es.all linksOk = false := by simpa using hall
        simp [mapToc_error_of_not_all gen es n hall2, hall2]

theorem loadSources_error_iff (env : Env) (gen : Nat → String) (srcs : List String) (n : Nat)
    (err : JsError) :
    (loadSources env gen srcs n).2 = Except.error err ↔ firstFailure env srcs = some err := by
  induction srcs generalizing n with
  | nil => simp [loadSources, firstFailure]
  | cons s rest ih =>
    unfold loadSources firstFailure
    cases hf : env.fs (env.fileLocation s) with
    | missing => simp [ih]
    | malformed => simp
    | notAList => simp
    | toc es =>
      by_cases hall : es.all linksOk = true
      · obtain ⟨r, hr⟩ := mapToc_ok_of_all gen es n hall
        obtain ⟨es1, n1⟩ := r
        simp only [hr, hall, if_true]
        cases h2 : (loadSources env gen rest n1).2 with
        | error err2 =>
          simp only [Except.error.injEq]
          rw [← ih n1, h2]
          simp
        | ok r2 =>
          simp only [false_iff]
          rw [← ih n1, h2]
          simp
      · have hall2 : es.all linksOk = false := by simpa using hall
        simp [mapToc_error_of_not_all gen es n hall2, hall2]

theorem loadSources_forall2 (env : Env) (gen : Nat → String) (R : Entry → Entry → Prop)
    (hR : ∀ e k e2 k2, mapEntry gen e k = Except.ok (e2, k2) → R e e2)
    (srcs : List String) (n : Nat) (items : List Entry) (n2 : Nat)
    (h : (loadSources env gen srcs n).2 = Except.ok (items, n2)) :
    List.Forall₂ R (sourceEntries env srcs) items := by
  induction srcs generalizing n items n2 with
  | nil =>
    simp only [loadSources, Except.ok.injEq, Prod.mk.injEq] at h
    rw [← h.1]
    exact List.Forall₂.nil
  | cons s rest ih =>
    cases hf : env.fs (env.fileLocation s) with
    | missing =>
      simp only [loadSources, hf] at h
      simpa [sourceEntries, hf, FileContent.entries] using ih n items n2 h
    | malformed => simp [loadSources, hf] at h
    | notAList => simp [loadSources, hf] at h
    | toc es =>
      cases hm : mapToc gen es n with
      | error err => simp [loadSources, hf, hm] at h
      | ok r =>
        obtain ⟨es1, n1⟩ := r
        cases h2 : (loadSources env gen rest n1).2 with
        | error err => simp [loadSources, hf, hm, h2] at h
        | ok r2 =>
          obtain ⟨es2, n3⟩ := r2
          simp only [loadSources, hf, hm, h2, Except.ok.injEq, Prod.mk.injEq] at h
          rw [← h.1]
          have h1 := mapToc_forall2 gen R hR es n es1 n1 hm
          have h3 := ih n1 es2 n3 h2
          simpa [sourceEntries, hf, FileContent.entries] using List.rel_append h1 h3

/-! ## The ids of the loaded tree -/

theorem fillIds_append (gen : Nat → String) (a b : List Val) (n : Nat) :
    fillIds gen (a ++ b) n =
      ((fillIds gen a n).1 ++ (fillIds gen b (fillIds gen a n).2).1,
        (fillIds gen b (fillIds gen a n).2).2) := by
  induction a generalizing n with
  | nil => simp [fillIds]
  | cons v rest ih =>
    by_cases hv : v.truthy = true
    · simp [fillIds, hv, ih]
    · simp [fillIds, hv, ih]

theorem fillIds_snd (gen : Nat → String) (vs : List Val) (n : Nat) :
    (fillIds gen vs n).2 = n + vs.countP (fun v => !v.truthy) := by
  induction vs generalizing n with
  | nil => simp [fillIds]
  | cons v rest ih =>
    by_cases hv : v.truthy = true
    · simp [fillIds, hv, ih]
    · simp [fillIds, hv, ih]
      omega

theorem fillIds_mem (gen : Nat → String) (vs : List Val) (n : Nat) (v : Val)
    (h : v ∈ (fillIds gen vs n).1) :
    (v ∈ vs ∧ v.truthy = true) ∨ ∃ k, n ≤ k ∧ v = Val.scalar (Scalar.str (gen k)) := by
  induction vs generalizing n with
  | nil => simp [fillIds] at h
  | cons w rest ih =>
    by_cases hw : w.truthy = true
    · simp only [fillIds, hw, if_true, List.mem_cons] at h
      rcases h with h | h
      · exact Or.inl ⟨by rw [h]; exact List.mem_cons_self _ _, by rw [h]; exact hw⟩
      · rcases ih n h with h2 | ⟨k, hk, hv⟩
        · exact Or.inl ⟨List.mem_cons_of_mem _ h2.1, h2.2⟩
        · exact Or.inr ⟨k, hk, hv⟩
    · have hf : fillIds gen (w :: rest) n =
          (Val.scalar (Scalar.str (gen n)) :: (fillIds gen rest (n + 1)).1,
            (fillIds gen rest (n + 1)).2) := by simp [fillIds, hw]
      rw [hf] at h
      simp only [List.mem_cons] at h
      rcases h with h | h
      · exact Or.inr ⟨n, le_refl n, h⟩
      · rcases ih (n + 1) h with h2 | ⟨k, hk, hv⟩
        · exact Or.inl ⟨List.mem_cons_of_mem _ h2.1, h2.2⟩
        · exact Or.inr ⟨k, by omega, hv⟩

theorem fillIds_truthy (gen : Nat → String) (hne : ∀ k, gen k ≠ "") (vs : List Val) (n : Nat)
    (v : Val) (h : v ∈ (fillIds gen vs n).1) : v.truthy = true := by
  rcases fillIds_mem gen vs n v h with h2 | ⟨k, _, hv⟩
  · exact h2.2
  · rw [hv]
    simp [Val.truthy, Scalar.truthy, hne k]

theorem fillIds_nodup (gen : Nat → String) (hinj : Function.Injective gen)
    (vs : List Val) (n : Nat)
    (hfresh : ∀ k, Val.scalar (Scalar.str (gen k)) ∉ vs.filter Val.truthy)
    (hnd : (vs.filter Val.truthy).Nodup) : (fillIds gen vs n).1.Nodup := by
  induction vs generalizing n with
  | nil => simp [fillIds]
  | cons w rest ih =>
    by_cases hw : w.truthy = true
    · simp only [List.filter_cons, hw, if_true, List.nodup_cons] at hnd
      have hfresh2 : ∀ k, Val.scalar (Scalar.str (gen k)) ∉ rest.filter Val.truthy := by
        intro k hk
        exact hfresh k (by simp [List.filter_cons, hw, hk])
      simp only [fillIds, hw, if_true, List.nodup_cons]
      refine ⟨?_, ih n hfresh2 hnd.2⟩
      intro hmem
      rcases fillIds_mem gen rest n w hmem with h2 | ⟨k, _, hv⟩
      · exact hnd.1 (List.mem_filter.2 ⟨h2.1, h2.2⟩)
      · exact hfresh k (List.mem_filter.2
          ⟨by rw [← hv]; exact List.mem_cons_self _ _, by rw [← hv]; exact hw⟩)
    · have hfilter : (w :: rest).filter Val.truthy = rest.filter Val.truthy := by
        simp [List.filter_cons, hw]
      rw [hfilter] at hnd hfresh
      have hf : fillIds gen (w :: rest) n =
          (Val.scalar (Scalar.str (gen n)) :: (fillIds gen rest (n + 1)).1,
            (fillIds gen rest (n + 1)).2) := by simp [fillIds, hw]
      rw [hf]
      simp only [List.nodup_cons]
      refine ⟨?_, ih (n + 1) hfresh hnd⟩
      intro hmem
      rcases fillIds_mem gen rest (n + 1) _ hmem with h2 | ⟨k, hk, hv⟩
      · exact hfresh n (List.mem_filter.2 ⟨h2.1, h2.2⟩)
      · simp only [Val.scalar.injEq, Scalar.str.injEq] at hv
        have := hinj hv
        omega

theorem treeIds_append (a b : List Entry) : treeIds (a ++ b) = treeIds a ++ treeIds b := by
  simp [treeIds]

theorem mapLinks_ids (gen : Nat → String) (ls : List Link) (n : Nat) :
    linkIds (mapLinks gen ls n).1 = (fillIds gen (linkIds ls) n).1 ∧
      (mapLinks gen ls n).2 = (fillIds gen (linkIds ls) n).2 := by
  induction ls generalizing n with
  | nil => simp [mapLinks, linkIds, fillIds]
  | cons l rest ih =>
    by_cases hl : (l.prop "id").truthy = true
    · have h1 := ih n
      simp only [linkIds] at h1
      simp [mapLinks, mapLink, linkIds, fillIds, hl, Val.truthy, linkProp_setProp_same, h1]
    · have h1 := ih (n + 1)
      simp only [linkIds] at h1
      simp [mapLinks, mapLink, linkIds, fillIds, hl, Val.truthy, linkProp_setProp_same, h1]

theorem entryId_eq_fillIds (gen : Nat → String) (e : Entry) (k : Nat) (rest : List Val) :
    fillIds gen (e.prop "id" :: rest) k =
      ((entryId gen e k).1 :: (fillIds gen rest (entryId gen e k).2).1,
        (fillIds gen rest (entryId gen e k).2).2) := by
  by_cases h : (e.prop "id").truthy = true
  · simp [fillIds, entryId, h]
  · simp [fillIds, entryId, h]

theorem mapEntry_ids (gen : Nat → String) (e e2 : Entry) (k k2 : Nat)
    (h : mapEntry gen e k = Except.ok (e2, k2)) :
    entryIds e2 = (fillIds gen (entryIds e) k).1 ∧ k2 = (fillIds gen (entryIds e) k).2 := by
  have hid : ∀ (v w : Val), Entry.prop (setProp (setProp e "id" v) "links" w) "id" = v := by
    intro v w
    rw [entryProp_setProp_ne _ "links" "id" w (by decide), entryProp_setProp_same]
  rcases mapEntry_cases gen e e2 k k2 h with ⟨s, hs, _, he2, hk2⟩ | ⟨ls, hls, he2, hk2⟩
  · subst he2
    have hsrc : entryIds e = e.prop "id" :: [] := by simp [entryIds, hs]
    rw [hsrc, entryId_eq_fillIds]
    simp only [entryIds, hid, entryProp_setProp_same, fillIds]
    exact ⟨trivial, hk2⟩
  · subst he2
    have hsrc : entryIds e = e.prop "id" :: linkIds ls := by simp [entryIds, hls]
    rw [hsrc, entryId_eq_fillIds]
    simp only [entryIds, hid, entryProp_setProp_same]
    rw [(mapLinks_ids gen ls _).1, hk2, (mapLinks_ids gen ls _).2]
    exact ⟨rfl, rfl⟩

theorem mapToc_ids (gen : Nat → String) (es : List Entry) (n : Nat) (es2 : List Entry)
    (n2 : Nat) (h : mapToc gen es n = Except.ok (es2, n2)) :
    treeIds es2 = (fillIds gen (treeIds es) n).1 ∧ n2 = (fillIds gen (treeIds es) n).2 := by
  induction es generalizing n es2 n2 with
  | nil =>
    simp only [mapToc, Except.ok.injEq, Prod.mk.injEq] at h
    rw [← h.1, ← h.2]
    simp [treeIds, fillIds]
  | cons e rest ih =>
    cases he : mapEntry gen e n with
    | error err => simp [mapToc, he] at h
    | ok r =>
      obtain ⟨e1, n1⟩ := r
      cases hr : mapToc gen rest n1 with
      | error err => simp [mapToc, he, hr] at h
      | ok r2 =>
        obtain ⟨es1, n3⟩ := r2
        simp only [mapToc, he, hr, Except.ok.injEq, Prod.mk.injEq] at h
        rw [← h.1, ← h.2]
        have h1 := mapEntry_ids gen e e1 n n1 he
        have h2 := ih n1 es1 n3 hr
        simp only [treeIds] at h2
        simp only [treeIds, List.map_cons, List.flatten_cons, fillIds_append, h1.1, h1.2,
          h2.1, h2.2]
        exact ⟨trivial, trivial⟩

theorem loadSources_ids (env : Env) (gen : Nat → String) (srcs : List String) (n : Nat)
    (items : List Entry) (n2 : Nat)
    (h : (loadSources env gen srcs n).2 = Except.ok (items, n2)) :
    treeIds items = (fillIds gen (treeIds (sourceEntries env srcs)) n).1 ∧
      n2 = (fillIds gen (treeIds (sourceEntries env srcs)) n).2 := by
  induction srcs generalizing n items n2 with
  | nil =>
    simp only [loadSources, Except.ok.injEq, Prod.mk.injEq] at h
    rw [← h.1, ← h.2]
    simp [treeIds, sourceEntries, fillIds]
  | cons s rest ih =>
    cases hf : env.fs (env.fileLocation s) with
    | missing =>
      simp only [loadSources, hf] at h
      simpa [sourceEntries, hf, FileContent.entries] using ih n items n2 h
    | malformed => simp [loadSources, hf] at h
    | notAList => simp [loadSources, hf] at h
    | toc es =>
      cases hm : mapToc gen es n with
      | error err => simp [loadSources, hf, hm] at h
      | ok r =>
        obtain ⟨es1, n1⟩ := r
        cases h2 : (loadSources env gen rest n1).2 with
        | error err => simp [loadSources, hf, hm, h2] at h
        | ok r2 =>
          obtain ⟨es2, n3⟩ := r2
          simp only [loadSources, hf, hm, h2, Except.ok.injEq, Prod.mk.injEq] at h
          rw [← h.1, ← h.2]
          have h1 := mapToc_ids gen es n es1 n1 hm
          have h3 := ih n1 es2 n3 h2
          have hsrc : sourceEntries env (s :: rest) = es ++ sourceEntries env rest := by
            simp [sourceEntries, hf, FileContent.entries]
          rw [hsrc, treeIds_append, treeIds_append, fillIds_append, h1.1, h3.1, h3.2, h1.2]
          exact ⟨rfl, rfl⟩

/-! ## Route resolution -/

theorem findRoot_firstMatch (items : List NavItem) (slug : Scalar) (entry : NavItem)
    (h : FirstMatch items slug entry) : findRoot items slug = entry.index := by
  obtain ⟨before, after, hitems, hbefore, hentry⟩ := h
  subst hitems
  induction before with
  | nil => simp [findRoot, List.find?, hentry]
  | cons x rest ih =>
    have hx : x.href ≠ slug := hbefore x (List.mem_cons_self _ _)
    have hrest : ∀ y ∈ rest, y.href ≠ slug := fun y hy => hbefore y (List.mem_cons_of_mem _ hy)
    have := ih hrest
    simp only [findRoot, List.cons_append, List.find?, hx, decide_False] at this ⊢
    exact this

theorem findRoot_noMatch (items : List NavItem) (slug : Scalar) (h : NoMatch items slug) :
    findRoot items slug = Scalar.undefined := by
  induction items with
  | nil => rfl
  | cons x rest ih =>
    have hx : x.href ≠ slug := h x (List.mem_cons_self _ _)
    have hrest : NoMatch rest slug := fun y hy => h y (List.mem_cons_of_mem _ hy)
    have := ih hrest
    simp only [findRoot, List.find?, hx, decide_False] at this ⊢
    exact this

theorem createPages_of_no_errors (resolve : String → String) (items : List NavItem)
    (graphql : String → QueryResult) (herr : (graphql "Mdx").errors = none) :
    createPages resolve items graphql =
      (graphql "Mdx").nodes.map (fun doc =>
        PageEffect.createPage
          { path := newPath items doc.slug
            component := templateFile resolve "Mdx"
            contextId := doc.id }) := by
  cases hn : (graphql "Mdx").nodes with
  | nil => simp [createPages, supportedTemplates, templatePages, herr, hn]
  | cons d ds => simp [createPages, supportedTemplates, templatePages, herr, hn]

/-! ## The run of sourceNodes -/

theorem navItems_of_errors_only (msgs : List String) (result : Except JsError Nat) :
    Outcome.navItems { effects := msgs.map SourceEffect.reporterError, result := result } =
      none := by
  induction msgs with
  | nil => rfl
  | cons m rest ih =>
    simp only [Outcome.navItems, List.map_cons, List.findSome?] at ih ⊢
    exact ih

theorem navItems_of_published (msgs : List String) (node : NavDataNode)
    (after : List SourceEffect) (result : Except JsError Nat) :
    Outcome.navItems
      { effects := msgs.map SourceEffect.reporterError ++ SourceEffect.createNode node :: after,
        result := result } = some node.navItems := by
  induction msgs with
  | nil => rfl
  | cons m rest ih =>
    simp only [Outcome.navItems, List.map_cons, List.cons_append, List.findSome?] at ih ⊢
    exact ih

theorem sourceNodes_of_ok (env : Env) (gen : Nat → String) (srcs : List String) (n : Nat)
    (items : List Entry) (n1 : Nat)
    (h : (loadSources env gen srcs n).2 = Except.ok (items, n1)) :
    sourceNodes env gen srcs n =
      { effects := (loadDiagnostics env srcs).map SourceEffect.reporterError ++
          [SourceEffect.createNode
             { id := env.createNodeId "NavData"
               navItems := items
               type := "NavData"
               contentDigest := env.createContentDigest items },
           SourceEffect.reporterSuccess "nodes created: NavData"]
        result := Except.ok n1 } := by
  simp only [sourceNodes, h, loadSources_fst]

theorem sourceNodes_of_error (env : Env) (gen : Nat → String) (srcs : List String) (n : Nat)
    (err : JsError) (h : (loadSources env gen srcs n).2 = Except.error err) :
    sourceNodes env gen srcs n =
      { effects := (loadDiagnostics env srcs).map SourceEffect.reporterError
        result := Except.error err } := by
  simp only [sourceNodes, h, loadSources_fst]

theorem sourceNodes_published (env : Env) (gen : Nat → String) (srcs : List String) (n : Nat)
    (items : List Entry) (h : (sourceNodes env gen srcs n).navItems = some items) :
    ∃ n1, (loadSources env gen srcs n).2 = Except.ok (items, n1) := by
  cases hl : (loadSources env gen srcs n).2 with
  | error err =>
    rw [sourceNodes_of_error env gen srcs n err hl, navItems_of_errors_only] at h
    cases h
  | ok r =>
    obtain ⟨items1, n1⟩ := r
    rw [sourceNodes_of_ok env gen srcs n items1 n1 hl, navItems_of_published] at h
    simp only [Option.some.injEq] at h
    exact ⟨n1, by rw [h]⟩

theorem firstFailure_of_loadable (env : Env) (srcs : List String)
    (h : ∀ s ∈ srcs, (env.fs (env.fileLocation s)).loadable = true) :
    firstFailure env srcs = none := by
  induction srcs with
  | nil => rfl
  | cons s rest ih =>
    have hs := h s (List.mem_cons_self _ _)
    have hrest := ih (fun t ht => h t (List.mem_cons_of_mem _ ht))
    unfold firstFailure
    cases hf : env.fs (env.fileLocation s) with
    | missing => simpa using hrest
    | malformed => simp [hf, FileContent.loadable] at hs
    | notAList => simp [hf, FileContent.loadable] at hs
    | toc es =>
      rw [hf] at hs
      simp only [FileContent.loadable] at hs
      simp [hs, hrest]

theorem loadDiagnostics_of_loadable (env : Env) (srcs : List String)
    (h : ∀ s ∈ srcs, (env.fs (env.fileLocation s)).loadable = true) :
    loadDiagnostics env srcs =
      (missingSources env srcs).map (fun s => missingMessage (env.fileLocation s)) := by
  induction srcs with
  | nil => rfl
  | cons s rest ih =>
    have hs := h s (List.mem_cons_self _ _)
    have hrest := ih (fun t ht => h t (List.mem_cons_of_mem _ ht))
    unfold loadDiagnostics
    simp only [missingSources] at hrest
    cases hf : env.fs (env.fileLocation s) with
    | missing => simp [missingSources, List.filter_cons, hf, FileContent.isMissing, hrest]
    | malformed => simp [hf, FileContent.loadable] at hs
    | notAList => simp [hf, FileContent.loadable] at hs
    | toc es =>
      rw [hf] at hs
      simp only [FileContent.loadable] at hs
      simp [missingSources, List.filter_cons, hf, FileContent.isMissing, hrest, hs]

theorem loadSources_ok_of_loadable (env : Env) (gen : Nat → String) (srcs : List String)
    (n : Nat) (h : ∀ s ∈ srcs, (env.fs (env.fileLocation s)).loadable = true) :
    ∃ items n1, (loadSources env gen srcs n).2 = Except.ok (items, n1) := by
  cases hl : (loadSources env gen srcs n).2 with
  | error err =>
    have := (loadSources_error_iff env gen srcs n err).1 hl
    rw [firstFailure_of_loadable env srcs h] at this
    cases this
  | ok r => exact ⟨r.1, r.2, rfl⟩

theorem sourceNodes_publishes (env : Env) (gen : Nat → String) (srcs : List String)
    (n : Nat) (h : ∀ s ∈ srcs, (env.fs (env.fileLocation s)).loadable = true) :
    ∃ items, (sourceNodes env gen srcs n).navItems = some items := by
  obtain ⟨items, n1, hl⟩ := loadSources_ok_of_loadable env gen srcs n h
  exact ⟨items, by
    rw [sourceNodes_of_ok env gen srcs n items n1 hl]
    exact navItems_of_published _ _ _ _⟩

theorem loadSources_perFile (env : Env) (gen : Nat → String) (srcs : List String) (n : Nat)
    (items : List Entry) (n2 : Nat)
    (h : (loadSources env gen srcs n).2 = Except.ok (items, n2)) :
    ∃ perFile : List (List Entry), items = perFile.flatten ∧
      List.Forall₂ (fun s es2 => ∃ k k2,
        mapToc gen (env.fs (env.fileLocation s)).entries k = Except.ok (es2, k2))
        srcs perFile := by
  induction srcs generalizing n items n2 with
  | nil =>
    simp only [loadSources, Except.ok.injEq, Prod.mk.injEq] at h
    exact ⟨[], by simp [← h.1], List.Forall₂.nil⟩
  | cons s rest ih =>
    cases hf : env.fs (env.fileLocation s) with
    | missing =>
      simp only [loadSources, hf] at h
      obtain ⟨perFile, hitems, hall⟩ := ih n items n2 h
      refine ⟨[] :: perFile, by simp [hitems], List.Forall₂.cons ?_ hall⟩
      exact ⟨0, 0, by simp [hf, FileContent.entries, mapToc]⟩
    | malformed => simp [loadSources, hf] at h
    | notAList => simp [loadSources, hf] at h
    | toc es =>
      cases hm : mapToc gen es n with
      | error err => simp [loadSources, hf, hm] at h
      | ok r =>
        obtain ⟨es1, n1⟩ := r
        cases h2 : (loadSources env gen rest n1).2 with
        | error err => simp [loadSources, hf, hm, h2] at h
        | ok r2 =>
          obtain ⟨es2, n3⟩ := r2
          simp only [loadSources, hf, hm, h2, Except.ok.injEq, Prod.mk.injEq] at h
          obtain ⟨perFile, hitems, hall⟩ := ih n1 es2 n3 h2
          refine ⟨es1 :: perFile, by simp [← h.1, hitems], List.Forall₂.cons ?_ hall⟩
          exact ⟨n, n1, by simp [hf, FileContent.entries, hm]⟩

theorem sourceEntries_length (env : Env) (srcs : List String) :
    (sourceEntries env srcs).length =
      (srcs.map (fun s => (env.fs (env.fileLocation s)).entries.length)).sum := by
  induction srcs with
  | nil => rfl
  | cons s rest ih =>
    simp only [sourceEntries] at ih
    simp [sourceEntries, ih]

/-! ## Claims on createPages -/

/-- C1: for every navItems sequence and every document the content query returns, the path
given to `createPage` is the `index` of the first top-level entry whose `href` is the
document's slug when that entry has an `index` (neither `undefined` nor `null`), and the
slug itself when the first match has no `index` or when no entry matches. Entries after
the first match are arbitrary, and the items hold no nested links to look into. -/
theorem createPages_path_first_match (resolve : String → String) (items : List NavItem)
    (graphql : String → QueryResult) (herr : (graphql "Mdx").errors = none)
    (i : Nat) (doc : Post) (hdoc : (graphql "Mdx").nodes[i]? = some doc) :
    ∃ page, (createPages resolve items graphql)[i]? = some (PageEffect.createPage page) ∧
      (∀ entry, FirstMatch items doc.slug entry →
        (entry.index.nullish = false → page.path = entry.index) ∧
        (entry.index.nullish = true → page.path = doc.slug)) ∧
      (NoMatch items doc.slug → page.path = doc.slug) := by
  refine ⟨{ path := newPath items doc.slug, component := templateFile resolve "Mdx",
            contextId := doc.id }, ?_, ?_, ?_⟩
  · rw [createPages_of_no_errors resolve items graphql herr]
    simp [List.getElem?_map, hdoc]
  · intro entry hfirst
    have hroot := findRoot_firstMatch items doc.slug entry hfirst
    constructor
    · intro hn
      simp [newPath, hroot, hn]
    · intro hn
      simp [newPath, hroot, hn]
  · intro hno
    simp [newPath, findRoot_noMatch items doc.slug hno, Scalar.nullish]

/-- C1, at a concrete input: with two entries for `/guide`, the document `/guide` is routed
to the `index` of the first one. -/
theorem createPages_path_first_match_witness :
    ∃ page, (createPages id guideItems guideQuery)[0]? = some (PageEffect.createPage page) ∧
      page.path = Scalar.str "/" := by
  obtain ⟨page, hpage, hfirst, _⟩ :=
    createPages_path_first_match id guideItems guideQuery rfl 0
      { id := "doc-1", slug := Scalar.str "/guide" } rfl
  refine ⟨page, hpage, ?_⟩
  have hm : FirstMatch guideItems (Scalar.str "/guide")
      { href := Scalar.str "/guide", index := Scalar.str "/" } :=
    ⟨[], _, rfl, by simp, rfl⟩
  exact (hfirst _ hm).1 rfl

/-- C4: when the content query returns the documents D without errors, `createPages` makes
exactly len(D) calls, all of them `createPage`, in the order of D; the i-th one carries the
id of the i-th document as `context.id` and the template file as `component`. -/
theorem createPages_one_request_per_document (resolve : String → String)
    (items : List NavItem) (graphql : String → QueryResult)
    (herr : (graphql "Mdx").errors = none) :
    (createPages resolve items graphql).length = (graphql "Mdx").nodes.length ∧
      ∀ (i : Nat) (doc : Post), (graphql "Mdx").nodes[i]? = some doc →
        ∃ page, (createPages resolve items graphql)[i]? = some (PageEffect.createPage page) ∧
          page.contextId = doc.id ∧
          page.component = resolve "./src/templates/Mdx.js" := by
  rw [createPages_of_no_errors resolve items graphql herr]
  refine ⟨by simp, ?_⟩
  intro i doc hdoc
  exact ⟨{ path := newPath items doc.slug, component := templateFile resolve "Mdx",
           contextId := doc.id }, by simp [List.getElem?_map, hdoc], rfl, rfl⟩

/-- C4, at a concrete input: three documents give three requests, the second one for the
second document. -/
theorem createPages_one_request_per_document_witness :
    (createPages id guideItems guideQuery).length = 3 ∧
      ∃ page, (createPages id guideItems guideQuery)[1]? = some (PageEffect.createPage page) ∧
        page.contextId = "doc-2" ∧ page.component = "./src/templates/Mdx.js" := by
  have h := createPages_one_request_per_document id guideItems guideQuery rfl
  exact ⟨h.1, h.2 1 { id := "doc-2", slug := Scalar.str "/api" } rfl⟩

/-- C5, as stated, fails: on a content query that returns no document and no errors,
`createPages` makes no call at all, so it reports no error. -/
theorem createPages_empty_reports_nothing :
    (emptyQuery "Mdx").errors = none ∧ (emptyQuery "Mdx").nodes = [] ∧
      ¬ ∃ message errors,
        PageEffect.panicOnBuild message errors ∈ createPages id guideItems emptyQuery := by
  refine ⟨rfl, rfl, ?_⟩
  rintro ⟨message, errors, hmem⟩
  have hnone : createPages id guideItems emptyQuery = [] := by decide
  rw [hnone] at hmem
  exact List.not_mem_nil _ hmem

/-- C5, amended: when the content query returns an empty list of documents and no errors,
`createPages` produces zero routes and makes no other call either: it ends normally without
reporting anything. -/
theorem createPages_empty_is_silent (resolve : String → String) (items : List NavItem)
    (graphql : String → QueryResult) (herr : (graphql "Mdx").errors = none)
    (hempty : (graphql "Mdx").nodes = []) :
    createPages resolve items graphql = [] := by
  rw [createPages_of_no_errors resolve items graphql herr, hempty]
  rfl

/-- C5 amended, at a concrete input. -/
theorem createPages_empty_is_silent_witness :
    createPages id guideItems emptyQuery = [] :=
  createPages_empty_is_silent id guideItems emptyQuery rfl rfl

/-- C10, as stated, fails: an entry whose `href` is the document's slug and whose `index`
is the empty string (falsy) gives the empty string as path, not the slug. -/
theorem createPages_empty_index_is_used :
    FirstMatch emptyIndexItems (Scalar.str "/a")
        { href := Scalar.str "/a", index := Scalar.str "" } ∧
      (Scalar.str "").truthy = false ∧
      createPages id emptyIndexItems emptyIndexQuery =
        [PageEffect.createPage
          { path := Scalar.str "", component := "./src/templates/Mdx.js",
            contextId := "doc-a" }] ∧
      Scalar.str "" ≠ Scalar.str "/a" := by
  refine ⟨⟨[], [], rfl, by simp, rfl⟩, by decide, by decide, by decide⟩

/-- C10, amended: the fallback treats a `null` or absent `index` as "no match found": for
every document whose slug is the `href` of a first matching entry with such an `index`,
the path is the document's slug, which is then also that entry's `href`, as it is when
no entry matches. Any other `index`, the empty string included, is used as the path. -/
theorem createPages_nullish_index_falls_back (resolve : String → String)
    (items : List NavItem) (graphql : String → QueryResult)
    (herr : (graphql "Mdx").errors = none)
    (i : Nat) (doc : Post) (hdoc : (graphql "Mdx").nodes[i]? = some doc) :
    ∃ page, (createPages resolve items graphql)[i]? = some (PageEffect.createPage page) ∧
      (∀ entry, FirstMatch items doc.slug entry →
        (entry.index = Scalar.undefined ∨ entry.index = Scalar.null →
          page.path = doc.slug ∧ page.path = entry.href) ∧
        (entry.index ≠ Scalar.undefined → entry.index ≠ Scalar.null →
          page.path = entry.index)) ∧
      (NoMatch items doc.slug → page.path = doc.slug) := by
  refine ⟨{ path := newPath items doc.slug, component := templateFile resolve "Mdx",
            contextId := doc.id }, ?_, ?_, ?_⟩
  · rw [createPages_of_no_errors resolve items graphql herr]
    simp [List.getElem?_map, hdoc]
  · intro entry hfirst
    have hroot := findRoot_firstMatch items doc.slug entry hfirst
    obtain ⟨_, _, _, _, hhref⟩ := hfirst
    constructor
    · intro hn
      rcases hn with hn | hn <;> simp [newPath, hroot, hn, Scalar.nullish, hhref]
    · intro h1 h2
      have hn : entry.index.nullish = false := by
        cases hi : entry.index <;> simp_all [Scalar.nullish]
      simp [newPath, hroot, hn]
  · intro hno
    simp [newPath, findRoot_noMatch items doc.slug hno, Scalar.nullish]

/-- C10 amended, at a concrete input: the entry for `/api` has a `null` index, and the
document `/api` is routed to its slug. -/
theorem createPages_nullish_index_falls_back_witness :
    ∃ page, (createPages id guideItems guideQuery)[1]? = some (PageEffect.createPage page) ∧
      page.path = Scalar.str "/api" := by
  obtain ⟨page, hpage, hfirst, _⟩ :=
    createPages_nullish_index_falls_back id guideItems guideQuery rfl 1
      { id := "doc-2", slug := Scalar.str "/api" } rfl
  refine ⟨page, hpage, ?_⟩
  have hm : FirstMatch guideItems (Scalar.str "/api")
      { href := Scalar.str "/api", index := Scalar.null } :=
    ⟨[{ href := Scalar.str "/guide", index := Scalar.str "/" },
      { href := Scalar.str "/guide", index := Scalar.str "/later" }], [], rfl,
      by decide, rfl⟩
  exact ((hfirst _ hm).1 (Or.inr rfl)).1

/-! ## Claims on sourceNodes -/

theorem mapLink_idRule (gen : Nat → String) (l : Link) (k : Nat) :
    LinkIdRule gen l (mapLink gen l k).1 := by
  by_cases h : (l.prop "id").truthy = true
  · simp [LinkIdRule, mapLink, h, linkProp_setProp_same]
  · have hf : (l.prop "id").truthy = false := by simpa using h
    simp [LinkIdRule, mapLink, hf, linkProp_setProp_same]

theorem mapEntry_idRule (gen : Nat → String) (e : Entry) (k : Nat) (e2 : Entry) (k2 : Nat)
    (h : mapEntry gen e k = Except.ok (e2, k2)) : EntryIdRule gen e e2 := by
  have hid : ∀ (v w : Val), Entry.prop (setProp (setProp e "id" v) "links" w) "id" = v := by
    intro v w
    rw [entryProp_setProp_ne _ "links" "id" w (by decide), entryProp_setProp_same]
  have hidv : ((e.prop "id").truthy = true → (entryId gen e k).1 = e.prop "id") ∧
      ((e.prop "id").truthy = false →
        ∃ j, (entryId gen e k).1 = Val.scalar (Scalar.str (gen j))) := by
    by_cases ht : (e.prop "id").truthy = true
    · simp [entryId, ht]
    · have hf : (e.prop "id").truthy = false := by simpa using ht
      simp [entryId, hf]
  rcases mapEntry_cases gen e e2 k k2 h with ⟨s, hs, _, he2, _⟩ | ⟨ls, hls, he2, _⟩
  · subst he2
    refine ⟨by rw [hid]; exact hidv.1, by rw [hid]; exact hidv.2, ?_⟩
    intro ls hls
    rw [hs] at hls
    cases hls
  · subst he2
    refine ⟨by rw [hid]; exact hidv.1, by rw [hid]; exact hidv.2, ?_⟩
    intro ls1 hls1
    rw [hls] at hls1
    simp only [Val.list.injEq] at hls1
    subst hls1
    exact ⟨_, entryProp_setProp_same _ _ _, mapLinks_forall2 gen _ (mapLink_idRule gen) ls _⟩

theorem mapLink_frame (gen : Nat → String) (l : Link) (k : Nat) :
    LinkFrame l (mapLink gen l k).1 := by
  intro key hkey
  by_cases h : (l.prop "id").truthy = true
  · simp [mapLink, h, lookupProp_setProp_ne l "id" key _ hkey]
  · simp [mapLink, h, lookupProp_setProp_ne l "id" key _ hkey]

theorem entryProp_of_not_hasProp (e : Entry) (k : String) (h : hasProp e k = false) :
    e.prop k = Val.scalar Scalar.undefined := by
  have hn : lookupProp e k = none := by simpa [hasProp] using h
  simp [Entry.prop, hn]

theorem mapEntry_frame (gen : Nat → String) (e : Entry) (k : Nat) (e2 : Entry) (k2 : Nat)
    (h : mapEntry gen e k = Except.ok (e2, k2)) : EntryFrame e e2 := by
  have hother : ∀ (v w : Val) (key : String), key ≠ "id" → key ≠ "links" →
      lookupProp (setProp (setProp e "id" v) "links" w) key = lookupProp e key := by
    intro v w key h1 h2
    rw [lookupProp_setProp_ne _ "links" key w h2, lookupProp_setProp_ne _ "id" key v h1]
  rcases mapEntry_cases gen e e2 k k2 h with ⟨s, hs, _, he2, _⟩ | ⟨ls, hls, he2, _⟩
  · subst he2
    refine ⟨fun key h1 h2 => hother _ _ key h1 h2, ?_, ?_, ?_⟩
    · intro ls hls
      rw [hs] at hls
      cases hls
    · intro s1 hs1
      rw [hs] at hs1
      rw [entryProp_setProp_same, hs1]
    · intro hno
      rw [entryProp_of_not_hasProp e "links" hno] at hs
      rw [entryProp_setProp_same, ← hs]
  · subst he2
    refine ⟨fun key h1 h2 => hother _ _ key h1 h2, ?_, ?_, ?_⟩
    · intro ls1 hls1
      rw [hls] at hls1
      simp only [Val.list.injEq] at hls1
      subst hls1
      have hall := mapLinks_forall2 gen _ (mapLink_frame gen) ls (entryId gen e k).2
      exact ⟨_, entryProp_setProp_same _ _ _, hall.length_eq.symm, hall⟩
    · intro s1 hs1
      rw [hls] at hs1
      cases hs1
    · intro hno
      rw [entryProp_of_not_hasProp e "links" hno] at hls
      cases hls

theorem filter_isError_effects (msgs : List String) (node : NavDataNode) (message : String) :
    ((msgs.map SourceEffect.reporterError ++
        [SourceEffect.createNode node, SourceEffect.reporterSuccess message]).filter
      SourceEffect.isError).length = msgs.length := by
  induction msgs with
  | nil => simp [SourceEffect.isError]
  | cons m rest ih => simpa [List.filter_cons, SourceEffect.isError] using ih

/-- C2: for every list of sources each of which is missing or holds a list of entries,
`sourceNodes` ends normally; the `navItems` it publishes is the concatenation, in source
order, of the per-file lists that `toc.map` produces (the empty list for a missing file),
so its length is the sum of the entry counts of the existing files; and it makes one
`reporter.error` call per missing file, before the node is created and success is
reported. -/
theorem sourceNodes_concatenates_sources (env : Env) (gen : Nat → String)
    (srcs : List String) (n : Nat)
    (hload : ∀ s ∈ srcs, (env.fs (env.fileLocation s)).loadable = true) :
    ∃ (perFile : List (List Entry)) (navItems : List Entry) (n2 : Nat),
      (sourceNodes env gen srcs n).result = Except.ok n2 ∧
      (sourceNodes env gen srcs n).effects =
        (missingSources env srcs).map
            (fun s => SourceEffect.reporterError (missingMessage (env.fileLocation s))) ++
          [SourceEffect.createNode
             { id := env.createNodeId "NavData"
               navItems := navItems
               type := "NavData"
               contentDigest := env.createContentDigest navItems },
           SourceEffect.reporterSuccess "nodes created: NavData"] ∧
      (sourceNodes env gen srcs n).navItems = some navItems ∧
      navItems = perFile.flatten ∧
      List.Forall₂ (fun s es2 => ∃ k k2,
        mapToc gen (env.fs (env.fileLocation s)).entries k = Except.ok (es2, k2))
        srcs perFile ∧
      navItems.length =
        (srcs.map (fun s => (env.fs (env.fileLocation s)).entries.length)).sum ∧
      ((sourceNodes env gen srcs n).effects.filter SourceEffect.isError).length =
        (missingSources env srcs).length := by
  obtain ⟨items, n1, hl⟩ := loadSources_ok_of_loadable env gen srcs n hload
  obtain ⟨perFile, hflat, hall⟩ := loadSources_perFile env gen srcs n items n1 hl
  have hrun := sourceNodes_of_ok env gen srcs n items n1 hl
  have hdiag := loadDiagnostics_of_loadable env srcs hload
  have hlen : items.length = (sourceEntries env srcs).length :=
    (loadSources_forall2 env gen (fun _ _ => True) (fun _ _ _ _ _ => trivial)
      srcs n items n1 hl).length_eq.symm
  refine ⟨perFile, items, n1, ?_, ?_, ?_, hflat, hall, ?_, ?_⟩
  · rw [hrun]
  · rw [hrun, hdiag, List.map_map]
    rfl
  · rw [hrun]
    exact navItems_of_published _ _ _ _
  · rw [hlen, sourceEntries_length]
  · rw [hrun]
    simp only [filter_isError_effects, hdiag, List.length_map]

/-- C2, at a concrete input: one existing file with two entries, one missing file, and one
existing file with one entry. -/
theorem sourceNodes_concatenates_sources_witness :
    ∃ navItems,
      (sourceNodes siteEnv xIds ["docs.yaml", "nowhere.yaml", "empty-id.yaml"] 0).navItems =
        some navItems ∧
      navItems.length = 3 ∧
      ((sourceNodes siteEnv xIds ["docs.yaml", "nowhere.yaml", "empty-id.yaml"] 0).effects.filter
        SourceEffect.isError).length = 1 := by
  obtain ⟨_, navItems, _, _, _, hnav, _, _, hlen, herr⟩ :=
    sourceNodes_concatenates_sources siteEnv xIds
      ["docs.yaml", "nowhere.yaml", "empty-id.yaml"] 0 (by decide)
  exact ⟨navItems, hnav, hlen.trans (by decide), herr.trans (by decide)⟩

/-- C3, as stated, fails: an entry authored with the empty string as `id` has an `id`
present, and the produced entry has a generated id instead of the authored one. -/
theorem sourceNodes_replaces_empty_id :
    sourceEntries siteEnv ["empty-id.yaml"] = emptyIdToc ∧
      emptyIdToc.map (fun e => (hasProp e "id", Entry.prop e "id")) =
        [(true, Val.scalar (Scalar.str ""))] ∧
      (sourceNodes siteEnv xIds ["empty-id.yaml"] 0).navItems =
        some [ [ ("id", Val.scalar (Scalar.str (xIds 0))),
                 ("label", Val.scalar (Scalar.str "Guide")),
                 ("href", Val.scalar (Scalar.str "/guide")),
                 ("links", Val.scalar Scalar.undefined) ] ] ∧
      Val.scalar (Scalar.str (xIds 0)) ≠ Val.scalar (Scalar.str "") := by
  decide

/-- C3, amended: when every source is missing or holds a list of entries, `navItems` is
published, and for every top-level entry and every link inside its `links` the produced
`id` is the authored id whenever that one is truthy, and is a value of the id generator
when the entry has no id or a falsy one (the empty string, `0`, `false`, `null`); the
generator is called once for each such entry or link and not otherwise. -/
theorem sourceNodes_id_rule (env : Env) (gen : Nat → String) (srcs : List String) (n : Nat)
    (hload : ∀ s ∈ srcs, (env.fs (env.fileLocation s)).loadable = true) :
    ∃ items, (sourceNodes env gen srcs n).navItems = some items ∧
      List.Forall₂ (EntryIdRule gen) (sourceEntries env srcs) items ∧
      (sourceNodes env gen srcs n).result =
        Except.ok (n + missingIdCount (sourceEntries env srcs)) := by
  obtain ⟨items, hitems⟩ := sourceNodes_publishes env gen srcs n hload
  obtain ⟨n1, hl⟩ := sourceNodes_published env gen srcs n items hitems
  refine ⟨items, hitems,
    loadSources_forall2 env gen _ (mapEntry_idRule gen) srcs n items n1 hl, ?_⟩
  rw [sourceNodes_of_ok env gen srcs n items n1 hl]
  have h2 := (loadSources_ids env gen srcs n items n1 hl).2
  rw [fillIds_snd] at h2
  simp only [missingIdCount, h2]

/-- C3 amended, at a concrete input: the file with ids on one entry and on one link. -/
theorem sourceNodes_id_rule_witness :
    ∃ items, (sourceNodes siteEnv xIds ["docs.yaml"] 0).navItems = some items ∧
      List.Forall₂ (EntryIdRule xIds) (sourceEntries siteEnv ["docs.yaml"]) items ∧
      (sourceNodes siteEnv xIds ["docs.yaml"] 0).result =
        Except.ok (0 + missingIdCount (sourceEntries siteEnv ["docs.yaml"])) :=
  sourceNodes_id_rule siteEnv xIds ["docs.yaml"] 0 (by decide)

/-- C7: when every source is missing or holds a list of entries, `navItems` is published and
loading leaves every authored property other than `id` untouched: each produced
entry has every property other than `id` and `links` as authored; an authored list of
`links` gives a list of the same length and order, each link as authored in every
property other than `id`; and an entry authored without `links` has `undefined` as
`links`. -/
theorem sourceNodes_frame (env : Env) (gen : Nat → String) (srcs : List String) (n : Nat)
    (hload : ∀ s ∈ srcs, (env.fs (env.fileLocation s)).loadable = true) :
    ∃ items, (sourceNodes env gen srcs n).navItems = some items ∧
      List.Forall₂ EntryFrame (sourceEntries env srcs) items := by
  obtain ⟨items, hitems⟩ := sourceNodes_publishes env gen srcs n hload
  obtain ⟨n1, hl⟩ := sourceNodes_published env gen srcs n items hitems
  exact ⟨items, hitems, loadSources_forall2 env gen _ (mapEntry_frame gen) srcs n items n1 hl⟩

/-- C7, at a concrete input. -/
theorem sourceNodes_frame_witness :
    ∃ items, (sourceNodes siteEnv xIds ["docs.yaml", "empty-id.yaml"] 0).navItems =
        some items ∧
      List.Forall₂ EntryFrame (sourceEntries siteEnv ["docs.yaml", "empty-id.yaml"]) items :=
  sourceNodes_frame siteEnv xIds ["docs.yaml", "empty-id.yaml"] 0 (by decide)

theorem xIds_injective : Function.Injective xIds := by
  intro a b h
  have h2 := congrArg String.length h
  simpa [xIds, String.length] using h2

theorem xIds_ne_empty (k : Nat) : xIds k ≠ "" := by
  intro h
  have h2 := congrArg String.length h
  simp [xIds, String.length] at h2

theorem xIds_head (k : Nat) : (xIds k).data.head? = some 'x' := by
  simp [xIds, List.replicate_succ]

/-- C6: when every source is missing or holds a list of entries, `navItems` is published,
and after loading every top-level entry and every nested link has a truthy `id` (so it
is not `undefined`, not `null` and not the empty string), and the ids of the whole tree are
pairwise distinct, when the authored ids that loading keeps are pairwise distinct and the
generator returns non-empty ids, distinct from each other and from those authored ids. -/
theorem sourceNodes_ids_distinct (env : Env) (gen : Nat → String) (srcs : List String)
    (n : Nat) (hload : ∀ s ∈ srcs, (env.fs (env.fileLocation s)).loadable = true)
    (hinj : Function.Injective gen) (hne : ∀ k, gen k ≠ "")
    (hfresh : ∀ k, Val.scalar (Scalar.str (gen k)) ∉ authoredIds (sourceEntries env srcs))
    (hauth : (authoredIds (sourceEntries env srcs)).Nodup) :
    ∃ items, (sourceNodes env gen srcs n).navItems = some items ∧
      (∀ v ∈ treeIds items, v.truthy = true ∧ v ≠ Val.scalar Scalar.undefined ∧
        v ≠ Val.scalar Scalar.null ∧ v ≠ Val.scalar (Scalar.str "")) ∧
      (treeIds items).Nodup := by
  obtain ⟨items, hitems⟩ := sourceNodes_publishes env gen srcs n hload
  obtain ⟨n1, hl⟩ := sourceNodes_published env gen srcs n items hitems
  have hids := (loadSources_ids env gen srcs n items n1 hl).1
  refine ⟨items, hitems, ?_⟩
  rw [hids]
  refine ⟨?_, fillIds_nodup gen hinj _ n hfresh hauth⟩
  intro v hv
  have ht := fillIds_truthy gen hne _ n v hv
  refine ⟨ht, ?_, ?_, ?_⟩ <;> intro hc <;> rw [hc] at ht <;>
    simp [Val.truthy, Scalar.truthy] at ht

/-- C6, at a concrete input: the authored ids are `guide` and `intro`, the generated ones
are runs of the letter x. -/
theorem sourceNodes_ids_distinct_witness :
    ∃ items, (sourceNodes siteEnv xIds ["docs.yaml", "empty-id.yaml"] 0).navItems =
        some items ∧
      (∀ v ∈ treeIds items, v.truthy = true ∧ v ≠ Val.scalar Scalar.undefined ∧
        v ≠ Val.scalar Scalar.null ∧ v ≠ Val.scalar (Scalar.str "")) ∧
      (treeIds items).Nodup := by
  have hauthored : authoredIds (sourceEntries siteEnv ["docs.yaml", "empty-id.yaml"]) =
      [Val.scalar (Scalar.str "guide"), Val.scalar (Scalar.str "intro")] := by decide
  refine sourceNodes_ids_distinct siteEnv xIds ["docs.yaml", "empty-id.yaml"] 0 (by decide)
      xIds_injective xIds_ne_empty ?_ (by rw [hauthored]; decide)
  intro k hk
  rw [hauthored] at hk
  simp only [List.mem_cons, Val.scalar.injEq, Scalar.str.injEq, List.mem_singleton,
    List.not_mem_nil, or_false] at hk
  have hx := xIds_head k
  rcases hk with hk | hk <;> rw [hk] at hx <;> exact absurd hx (by decide)

theorem firstFailure_of_malformed (env : Env) (srcs : List String)
    (h : ∃ s ∈ srcs, env.fs (env.fileLocation s) = FileContent.malformed) :
    ∃ err, firstFailure env srcs = some err := by
  induction srcs with
  | nil =>
    obtain ⟨s, hs, _⟩ := h
    cases hs
  | cons t rest ih =>
    unfold firstFailure
    cases hf : env.fs (env.fileLocation t) with
    | malformed => exact ⟨_, rfl⟩
    | notAList => exact ⟨_, rfl⟩
    | missing =>
      obtain ⟨s, hs, hbad⟩ := h
      rcases List.mem_cons.1 hs with hst | hsr
      · rw [hst, hf] at hbad
        cases hbad
      · exact ih ⟨s, hsr, hbad⟩
    | toc es =>
      by_cases hall : es.all linksOk = true
      · obtain ⟨s, hs, hbad⟩ := h
        rcases List.mem_cons.1 hs with hst | hsr
        · rw [hst, hf] at hbad
          cases hbad
        · simpa [hall] using ih ⟨s, hsr, hbad⟩
      · exact ⟨JsError.typeError, by simp [hall]⟩

theorem firstFailure_append (env : Env) (before rest : List String)
    (h : ∀ t ∈ before, (env.fs (env.fileLocation t)).loadable = true) :
    firstFailure env (before ++ rest) = firstFailure env rest ∧
      loadDiagnostics env (before ++ rest) =
        (missingSources env before).map (fun s => missingMessage (env.fileLocation s)) ++
          loadDiagnostics env rest := by
  induction before with
  | nil => simp [missingSources]
  | cons t ts ih =>
    have ht := h t (List.mem_cons_self _ _)
    have hts := ih (fun u hu => h u (List.mem_cons_of_mem _ hu))
    simp only [missingSources] at hts
    cases hf : env.fs (env.fileLocation t) with
    | malformed => simp [hf, FileContent.loadable] at ht
    | notAList => simp [hf, FileContent.loadable] at ht
    | missing =>
      simp [firstFailure, loadDiagnostics, missingSources, List.filter_cons, hf,
        FileContent.isMissing, hts]
    | toc es =>
      rw [hf] at ht
      simp only [FileContent.loadable] at ht
      simp [firstFailure, loadDiagnostics, missingSources, List.filter_cons, hf,
        FileContent.isMissing, hts, ht]

/-- C8: when one of the sources is a file on which `yaml.load` raises, `sourceNodes` ends
with an exception, without creating the NavData node and without reporting success (the
only calls made are `reporter.error` for missing files met earlier); and when every source
before that file is missing or loads, the exception is the one of `yaml.load`. -/
theorem sourceNodes_malformed_aborts (env : Env) (gen : Nat → String) (srcs : List String)
    (n : Nat) (hbad : ∃ s ∈ srcs, env.fs (env.fileLocation s) = FileContent.malformed) :
    (∃ err, (sourceNodes env gen srcs n).result = Except.error err) ∧
      (sourceNodes env gen srcs n).navItems = none ∧
      (∀ eff ∈ (sourceNodes env gen srcs n).effects, eff.isError = true) ∧
      (∀ before s after, srcs = before ++ s :: after →
        (∀ t ∈ before, (env.fs (env.fileLocation t)).loadable = true) →
        env.fs (env.fileLocation s) = FileContent.malformed →
        (sourceNodes env gen srcs n).result = Except.error JsError.yamlException ∧
        (sourceNodes env gen srcs n).effects =
          (missingSources env before).map
            (fun t => SourceEffect.reporterError (missingMessage (env.fileLocation t)))) := by
  obtain ⟨err, herr⟩ := firstFailure_of_malformed env srcs hbad
  have hl := (loadSources_error_iff env gen srcs n err).2 herr
  have hrun := sourceNodes_of_error env gen srcs n err hl
  refine ⟨⟨err, by rw [hrun]⟩, by rw [hrun]; exact navItems_of_errors_only _ _, ?_, ?_⟩
  · rw [hrun]
    intro eff heff
    simp only [List.mem_map] at heff
    obtain ⟨m, _, hm⟩ := heff
    rw [← hm]
    rfl
  · intro before s after hsrcs hbefore hs
    have happ := firstFailure_append env before (s :: after) hbefore
    have h1 : firstFailure env (s :: after) = some JsError.yamlException := by
      simp [firstFailure, hs]
    have h2 : loadDiagnostics env (s :: after) = [] := by
      simp [loadDiagnostics, hs]
    rw [← hsrcs, h1, h2] at happ
    have hl2 := (loadSources_error_iff env gen srcs n _).2 happ.1
    rw [sourceNodes_of_error env gen srcs n _ hl2, happ.2]
    simp [List.map_map, Function.comp_def]

/-- C8, at a concrete input: a missing file, then the file that does not parse, then a
file that would load. -/
theorem sourceNodes_malformed_aborts_witness :
    (sourceNodes siteEnv xIds ["nowhere.yaml", "broken.yaml", "docs.yaml"] 0).result =
        Except.error JsError.yamlException ∧
      (sourceNodes siteEnv xIds ["nowhere.yaml", "broken.yaml", "docs.yaml"] 0).effects =
        [SourceEffect.reporterError
          "Table of Contents file /site/nowhere.yaml missing.  Skipped."] ∧
      (sourceNodes siteEnv xIds ["nowhere.yaml", "broken.yaml", "docs.yaml"] 0).navItems =
        none := by
  have h := sourceNodes_malformed_aborts siteEnv xIds
    ["nowhere.yaml", "broken.yaml", "docs.yaml"] 0 ⟨"broken.yaml", by decide, by decide⟩
  have h2 := h.2.2.2 ["nowhere.yaml"] "broken.yaml" ["docs.yaml"] rfl (by decide) (by decide)
  exact ⟨h2.1, h2.2.trans (by decide), h.2.1⟩

theorem forall2_getElem {α β : Type} {R : α → β → Prop} {l1 : List α} {l2 : List β}
    (h : List.Forall₂ R l1 l2) (i : Nat) (x : α) (y : β)
    (hx : l1[i]? = some x) (hy : l2[i]? = some y) : R x y := by
  induction h generalizing i with
  | nil => simp at hx
  | cons hxy _ ih =>
    cases i with
    | zero =>
      simp only [List.getElem?_cons_zero, Option.some.injEq] at hx hy
      rw [← hx, ← hy]
      exact hxy
    | succ j =>
      simp only [List.getElem?_cons_succ] at hx hy
      exact ih j hx hy

theorem mapLink_same (gen1 gen2 : Nat → String) (l : Link) (k1 k2 : Nat) :
    SameLoadedLink l (mapLink gen1 l k1).1 (mapLink gen2 l k2).1 := by
  constructor
  · intro key hkey
    rw [mapLink_frame gen1 l k1 key hkey, mapLink_frame gen2 l k2 key hkey]
  · intro ht
    simp [mapLink, ht]

theorem mapLinks_eq_of_authored (gen1 gen2 : Nat → String) (ls : List Link) (k1 k2 : Nat)
    (h : ∀ l ∈ ls, (l.prop "id").truthy = true) :
    (mapLinks gen1 ls k1).1 = (mapLinks gen2 ls k2).1 := by
  induction ls generalizing k1 k2 with
  | nil => rfl
  | cons l rest ih =>
    have hl := h l (List.mem_cons_self _ _)
    have hrest := fun m hm => h m (List.mem_cons_of_mem _ hm)
    simp only [mapLinks, mapLink, hl, if_true]
    rw [ih k1 k2 hrest]

theorem mapEntry_same (gen1 gen2 : Nat → String) (e a b : Entry) (k1 k2 m1 m2 : Nat)
    (h1 : mapEntry gen1 e k1 = Except.ok (a, m1))
    (h2 : mapEntry gen2 e k2 = Except.ok (b, m2)) : SameLoadedEntry e a b := by
  have hf1 := mapEntry_frame gen1 e k1 a m1 h1
  have hf2 := mapEntry_frame gen2 e k2 b m2 h2
  have hi1 := mapEntry_idRule gen1 e k1 a m1 h1
  have hi2 := mapEntry_idRule gen2 e k2 b m2 h2
  refine ⟨?_, ?_, ?_, ?_, ?_⟩
  · intro key hk1 hk2
    rw [hf1.1 key hk1 hk2, hf2.1 key hk1 hk2]
  · intro ht
    rw [hi1.1 ht, hi2.1 ht]
  · intro ls hls
    rcases mapEntry_cases gen1 e a k1 m1 h1 with ⟨s, hs, _⟩ | ⟨ls1, hls1, ha, _⟩
    · rw [hs] at hls
      cases hls
    rcases mapEntry_cases gen2 e b k2 m2 h2 with ⟨s, hs, _⟩ | ⟨ls2, hls2, hb, _⟩
    · rw [hs] at hls
      cases hls
    rw [hls] at hls1 hls2
    simp only [Val.list.injEq] at hls1 hls2
    subst hls1
    subst hls2
    have hall1 := mapLinks_forall2 gen1 (fun l x => ∃ k, x = (mapLink gen1 l k).1)
      (fun l k => ⟨k, rfl⟩) ls (entryId gen1 e k1).2
    have hall2 := mapLinks_forall2 gen2 (fun l x => ∃ k, x = (mapLink gen2 l k).1)
      (fun l k => ⟨k, rfl⟩) ls (entryId gen2 e k2).2
    refine ⟨_, _, by rw [ha]; exact entryProp_setProp_same _ _ _,
      by rw [hb]; exact entryProp_setProp_same _ _ _,
      hall1.length_eq.symm.trans hall2.length_eq, ?_⟩
    intro j l x y hl hx hy
    obtain ⟨j1, hx1⟩ := forall2_getElem hall1 j l x hl hx
    obtain ⟨j2, hy1⟩ := forall2_getElem hall2 j l y hl hy
    rw [hx1, hy1]
    exact mapLink_same gen1 gen2 l j1 j2
  · intro s hs
    rw [hf1.2.2.1 s hs, hf2.2.2.1 s hs]
  · intro hfull
    have hid1 : (entryId gen1 e k1) = (e.prop "id", k1) := by simp [entryId, hfull.1]
    have hid2 : (entryId gen2 e k2) = (e.prop "id", k2) := by simp [entryId, hfull.1]
    rcases mapEntry_cases gen1 e a k1 m1 h1 with ⟨s, hs, _, ha, _⟩ | ⟨ls1, hls1, ha, _⟩
    · rcases mapEntry_cases gen2 e b k2 m2 h2 with ⟨s2, hs2, _, hb, _⟩ | ⟨ls2, hls2, _⟩
      · rw [hs] at hs2
        simp only [Val.scalar.injEq] at hs2
        rw [ha, hb, hid1, hid2, hs2]
      · rw [hs] at hls2
        cases hls2
    · rcases mapEntry_cases gen2 e b k2 m2 h2 with ⟨s2, hs2, _⟩ | ⟨ls2, hls2, hb, _⟩
      · rw [hls1] at hs2
        cases hs2
      · rw [hls1] at hls2
        simp only [Val.list.injEq] at hls2
        subst hls2
        rw [ha, hb, hid1, hid2,
          mapLinks_eq_of_authored gen1 gen2 ls1 k1 k2 (hfull.2 ls1 hls1)]

theorem navItems_isSome (env : Env) (gen : Nat → String) (srcs : List String) (n : Nat) :
    (sourceNodes env gen srcs n).navItems.isSome = (firstFailure env srcs).isNone := by
  cases hl : (loadSources env gen srcs n).2 with
  | error err =>
    rw [sourceNodes_of_error env gen srcs n err hl, navItems_of_errors_only,
      (loadSources_error_iff env gen srcs n err).1 hl]
    rfl
  | ok r =>
    obtain ⟨items, n1⟩ := r
    rw [sourceNodes_of_ok env gen srcs n items n1 hl, navItems_of_published]
    cases hff : firstFailure env srcs with
    | none => rfl
    | some err =>
      rw [(loadSources_error_iff env gen srcs n err).2 hff] at hl
      cases hl

/-- C9, as stated, fails: the entry is authored with an id (the empty string), and two
loads with two generators give it two different ids. -/
theorem sourceNodes_reload_differs_on_empty_id :
    emptyIdToc.map (fun e => (hasProp e "id", Entry.prop e "id")) =
        [(true, Val.scalar (Scalar.str ""))] ∧
      (sourceNodes siteEnv xIds ["empty-id.yaml"] 0).navItems.map
          (fun items => items.map (fun e => Entry.prop e "id")) =
        some [Val.scalar (Scalar.str "x")] ∧
      (sourceNodes siteEnv yIds ["empty-id.yaml"] 0).navItems.map
          (fun items => items.map (fun e => Entry.prop e "id")) =
        some [Val.scalar (Scalar.str "y")] := by
  decide

/-- C9, amended: two loads of the same sources, with any two runs of the id generator,
either both publish or both abort, and they publish when every source is missing or holds
a list of entries; when they publish, the two `navItems` have the length
of the authored entries, and corresponding entries and nested links agree in every
property except the `id` of those whose authored id is absent or falsy; every entry or
link whose authored id is truthy has the same id in both loads, and is identical in both
when the ids of its nested links are truthy too. -/
theorem sourceNodes_twice (env : Env) (gen1 gen2 : Nat → String) (srcs : List String)
    (n1 n2 : Nat) :
    (sourceNodes env gen1 srcs n1).navItems.isSome =
        (sourceNodes env gen2 srcs n2).navItems.isSome ∧
      ((∀ s ∈ srcs, (env.fs (env.fileLocation s)).loadable = true) →
        (sourceNodes env gen1 srcs n1).navItems.isSome = true) ∧
      ∀ items1 items2, (sourceNodes env gen1 srcs n1).navItems = some items1 →
        (sourceNodes env gen2 srcs n2).navItems = some items2 →
        items1.length = (sourceEntries env srcs).length ∧
        items2.length = items1.length ∧
        ∀ (i : Nat) (e a b : Entry), (sourceEntries env srcs)[i]? = some e →
          items1[i]? = some a → items2[i]? = some b → SameLoadedEntry e a b := by
  refine ⟨by rw [navItems_isSome, navItems_isSome], ?_, ?_⟩
  · intro hload
    obtain ⟨items, hitems⟩ := sourceNodes_publishes env gen1 srcs n1 hload
    rw [hitems]
    rfl
  intro items1 items2 h1 h2
  obtain ⟨m1, hl1⟩ := sourceNodes_published env gen1 srcs n1 items1 h1
  obtain ⟨m2, hl2⟩ := sourceNodes_published env gen2 srcs n2 items2 h2
  have hall1 := loadSources_forall2 env gen1
    (fun e a => ∃ k m, mapEntry gen1 e k = Except.ok (a, m))
    (fun e k a m h => ⟨k, m, h⟩) srcs n1 items1 m1 hl1
  have hall2 := loadSources_forall2 env gen2
    (fun e b => ∃ k m, mapEntry gen2 e k = Except.ok (b, m))
    (fun e k b m h => ⟨k, m, h⟩) srcs n2 items2 m2 hl2
  refine ⟨hall1.length_eq.symm, hall2.length_eq.symm.trans hall1.length_eq, ?_⟩
  intro i e a b he ha hb
  obtain ⟨k1, j1, hm1⟩ := forall2_getElem hall1 i e a he ha
  obtain ⟨k2, j2, hm2⟩ := forall2_getElem hall2 i e b he hb
  exact mapEntry_same gen1 gen2 e a b k1 k2 j1 j2 hm1 hm2

/-- C9 amended, at a concrete input: the first entry of the file is authored with the id
`guide`, and has that id in both loads. -/
theorem sourceNodes_twice_witness :
    ∃ a b, (sourceNodes siteEnv xIds ["docs.yaml"] 0).navItems.bind (fun items => items[0]?) =
        some a ∧
      (sourceNodes siteEnv yIds ["docs.yaml"] 5).navItems.bind (fun items => items[0]?) =
        some b ∧
      a.prop "id" = b.prop "id" := by
  obtain ⟨items1, h1⟩ :
      ∃ items, (sourceNodes siteEnv xIds ["docs.yaml"] 0).navItems = some items := ⟨_, rfl⟩
  obtain ⟨items2, h2⟩ :
      ∃ items, (sourceNodes siteEnv yIds ["docs.yaml"] 5).navItems = some items := ⟨_, rfl⟩
  obtain ⟨a, ha⟩ : ∃ a, items1[0]? = some a := by
    have : (sourceNodes siteEnv xIds ["docs.yaml"] 0).navItems.bind (fun items => items[0]?) ≠
        none := by decide
    rw [h1] at this
    exact Option.ne_none_iff_exists'.1 this
  obtain ⟨b, hb⟩ : ∃ b, items2[0]? = some b := by
    have : (sourceNodes siteEnv yIds ["docs.yaml"] 5).navItems.bind (fun items => items[0]?) ≠
        none := by decide
    rw [h2] at this
    exact Option.ne_none_iff_exists'.1 this
  have hsame := (sourceNodes_twice siteEnv xIds yIds ["docs.yaml"] 0 5).2.2 items1 items2 h1 h2
  have hentry := hsame.2.2 0 _ a b rfl ha hb
  exact ⟨a, b, by rw [h1]; exact ha, by rw [h2]; exact hb, hentry.2.1 (by decide)⟩

end GatsbyNode
